import Mathlib

/-!
# The fake TUN device of `wgengine/tstun/faketun.go`

A shallow embedding of `fakeTUN` and of the part of Go's channel semantics its
methods rely on, followed by the properties of the device.

Go semantics embedded here (unbuffered channels only, as made by `make(chan T)`):

* `close(c)` panics when `c` is already closed; otherwise it marks `c` closed and
  completes every goroutine parked on `c`: a parked receive gets the zero value,
  a parked send panics.
* a receive from a closed channel can proceed at once and yields the zero value
  (the nil slice for `chan []byte`); a send on a closed channel can proceed at once
  and panics;
* on an open unbuffered channel a receive can proceed exactly when a sender is
  parked on the channel, and a send exactly when a receiver is parked on it;
* `select` evaluates the right-hand sides of its send cases on entry; when at
  least one case can proceed it takes any one of them (the scheduler's `choice`);
  when none can, the goroutine parks on all of its cases and is completed by the
  first operation of another goroutine that matches one of them, with that case;
  when several goroutines are parked on a channel, the scheduler's `peer` says
  which of them an arriving operation meets.
* a panic ends the call of the goroutine it occurs in; the model records it as
  the outcome of that call.

`int` is the 64-bit two's-complement integer; the sum `offset+len(b)` is wrapped.
-/

namespace tstun

/-! ## Values -/

/-- A byte of a packet. -/
abbrev Byte := Fin 256

/-- The largest value of the type `int`. -/
def maxInt : Nat := 2 ^ 63 - 1

/-- Wrap a mathematical integer into the range of `int` (two's complement). -/
def wrapInt (x : Int) : Int := (x + 2 ^ 63) % 2 ^ 64 - 2 ^ 63

/-- A value of type `[]byte`: `arr` is the backing array from the first element of
the slice up to its capacity, `len` the length of the slice. The nil slice has an
empty backing array. -/
structure Slice where
  arr : List Byte
  len : Nat
  len_le : len ≤ arr.length
  cap_le : arr.length ≤ maxInt

/-- The capacity `cap(s)`. -/
def Slice.cap (s : Slice) : Nat := s.arr.length

/-- The elements `s[0], ..., s[len(s)-1]`. -/
def Slice.bytes (s : Slice) : List Byte := s.arr.take s.len

/-- The nil slice, the zero value of `[]byte`. -/
def Slice.nil : Slice := ⟨[], 0, Nat.le_refl 0, Nat.zero_le maxInt⟩

/-- The slice expression `s[n:]`; `none` stands for the run-time panic
"slice bounds out of range" (the bounds must satisfy `0 <= n <= len(s)`). -/
def Slice.sliceFrom (s : Slice) (n : Int) : Option Slice :=
  if 0 ≤ n ∧ n ≤ (s.len : Int) then
    some ⟨s.arr.drop n.toNat, s.len - n.toNat,
      by rw [List.length_drop]; exact Nat.sub_le_sub_right s.len_le _,
      by rw [List.length_drop]; exact Nat.le_trans (Nat.sub_le _ _) s.cap_le⟩
  else none

/-- The backing array `arr` after `copy(dst, src)`, where `dst` is the window of
length `k` that starts at index `lo` of `arr`: the first `min k (len src)` elements
of `src` are stored at `lo, lo+1, ...`; every other element is kept. -/
def copyAt (arr : List Byte) (lo k : Nat) (src : List Byte) : List Byte :=
  (List.range arr.length).map fun i =>
    if lo ≤ i ∧ i < lo + min k src.length then src.getD (i - lo) 0 else arr.getD i 0

/-- The errors the device returns: `io.EOF` and the package variable `ErrClosed`. -/
inductive Error where
  | EOF
  | ErrClosed
  deriving DecidableEq, Repr

/-- How a call of a method ends: with its results, or in a panic. -/
inductive Outcome where
  /-- results `(int, error)` of Read, Write and MTU -/
  | intErr (n : Int) (err : Option Error)
  /-- results `(string, error)` of Name -/
  | strErr (s : String) (err : Option Error)
  /-- result `error` of Close and Flush -/
  | err (e : Option Error)
  /-- run-time panic carrying its message -/
  | panic (msg : String)
  deriving DecidableEq, Repr

/-! ## The device -/

/-- An unbuffered channel as far as one goroutine sees it: whether it has been
closed. The goroutines parked on it are kept in the goroutine table. -/
structure Chan where
  closed : Bool
  deriving DecidableEq, Repr

/-- The statement `close(c)`. -/
def Chan.close (c : Chan) : Except String Chan :=
  if c.closed then .error "close of closed channel" else .ok ⟨true⟩

/-- The struct `fakeTUN`. -/
structure fakeTUN where
  datachan : Chan
  evchan : Chan
  closechan : Chan
  deriving DecidableEq, Repr

/-- The constructor `NewFakeTUN`: three fresh open channels. -/
def NewFakeTUN : fakeTUN := ⟨⟨false⟩, ⟨false⟩, ⟨false⟩⟩

/-- The method `File`. -/
def File (_t : fakeTUN) : Outcome := .panic "fakeTUN.File() called, which makes no sense"

/-- The method `Flush`. -/
def Flush (_t : fakeTUN) : Outcome := .err none

/-- The method `MTU`. -/
def MTU (_t : fakeTUN) : Outcome := .intErr 1500 none

/-- The method `Name`. -/
def Name (_t : fakeTUN) : Outcome := .strErr "FakeTUN" none

/-- The method `Events`: the event channel of the device. -/
def Events (t : fakeTUN) : Chan := t.evchan

/-- The statement of `Close` at position `pc`: 0 is `close(t.closechan)`, 1 is
`close(t.datachan)`, 2 is `close(t.evchan)`. -/
def Close.stmt (pc : Nat) (t : fakeTUN) : Except String fakeTUN :=
  match pc with
  | 0 => (Chan.close t.closechan).map fun c => ⟨t.datachan, t.evchan, c⟩
  | 1 => (Chan.close t.datachan).map fun c => ⟨c, t.evchan, t.closechan⟩
  | _ => (Chan.close t.evchan).map fun c => ⟨t.datachan, c, t.closechan⟩

/-- The method `Close` run without interruption: the three `close` statements in
order, then `return nil`. A panic leaves the device as the statements before it
made it. -/
def Close (t : fakeTUN) : Outcome × fakeTUN :=
  match Close.stmt 0 t with
  | .error msg => (.panic msg, t)
  | .ok t1 =>
    match Close.stmt 1 t1 with
    | .error msg => (.panic msg, t1)
    | .ok t2 =>
      match Close.stmt 2 t2 with
      | .error msg => (.panic msg, t2)
      | .ok t3 => (.err none, t3)

/-- The cases of the two `select` statements, in source order. -/
inductive Case where
  | closechan
  | datachan
  deriving DecidableEq, Repr

/-- The cases of the `select` in `Read` that can proceed: `<-t.closechan` when
`closechan` is closed, `<-t.datachan` when `datachan` is closed or a sender is
parked on it. -/
def Read.ready (t : fakeTUN) (sender : Bool) : List Case :=
  (if t.closechan.closed then [Case.closechan] else []) ++
  (if t.datachan.closed || sender then [Case.datachan] else [])

/-- The body of `case <-t.closechan` in `Read`: the results and the buffer `out`. -/
def Read.closed (out : Slice) : Outcome × Slice := (.intErr 0 (some .EOF), out)

/-- The body of `case b := <-t.datachan` in `Read` for the received `b`:
`copy(out[offset:offset+len(b)], b); return len(b), nil`. The slice expression
panics unless `0 <= offset <= offset+len(b) <= cap(out)`. -/
def Read.recv (b out : Slice) (offset : Int) : Outcome × Slice :=
  let hi := wrapInt (offset + b.len)
  if 0 ≤ offset ∧ offset ≤ hi ∧ hi ≤ (out.cap : Int) then
    (.intErr b.len none,
      ⟨copyAt out.arr offset.toNat (hi - offset).toNat b.bytes, out.len,
        by simpa [copyAt] using out.len_le,
        by simpa [copyAt] using out.cap_le⟩)
  else (.panic "slice bounds out of range", out)

/-- The method `Read` as run by a goroutine that finds the device in state `t`
and, parked on `datachan`, a sender offering `sender` (if any). `none`: no case can
proceed and the goroutine parks. Otherwise the case taken, the outcome and the
buffer `out` after the call. -/
def Read (t : fakeTUN) (sender : Option Slice) (choice : Nat) (out : Slice) (offset : Int) :
    Option (Case × Outcome × Slice) :=
  let cases := Read.ready t sender.isSome
  match cases[choice % cases.length]? with
  | none => none
  | some .closechan => some (.closechan, Read.closed out)
  | some .datachan =>
    some (.datachan, Read.recv (if t.datachan.closed then Slice.nil else sender.getD Slice.nil) out offset)

/-- The cases of the `select` in `Write` that can proceed: `<-t.closechan` when
`closechan` is closed, `t.datachan <- b[n:]` when `datachan` is closed or a
receiver is parked on it. -/
def Write.ready (t : fakeTUN) (receiver : Bool) : List Case :=
  (if t.closechan.closed then [Case.closechan] else []) ++
  (if t.datachan.closed || receiver then [Case.datachan] else [])

/-- The body of `case <-t.closechan` in `Write`. -/
def Write.closed : Outcome := .intErr 0 (some .ErrClosed)

/-- The body of `case t.datachan <- b[n:]` in `Write` after the send: `return len(b), nil`. -/
def Write.sent (b : Slice) : Outcome := .intErr b.len none

/-- What a call of `Write` does when it is run. -/
inductive WriteResult where
  /-- no case can proceed: the goroutine parks, offering `payload` -/
  | park (payload : Slice)
  /-- the call ends with outcome `o`; `sent` is the slice handed to a parked receiver -/
  | fin (o : Outcome) (sent : Option Slice)

/-- The method `Write` as run by a goroutine that finds the device in state `t`
and `receiver` telling whether a receiver is parked on `datachan`. The operand
`b[n:]` is evaluated on entering the `select`. -/
def Write (t : fakeTUN) (receiver : Bool) (choice : Nat) (b : Slice) (n : Int) : WriteResult :=
  match b.sliceFrom n with
  | none => .fin (.panic "slice bounds out of range") none
  | some p =>
    let cases := Write.ready t receiver
    match cases[choice % cases.length]? with
    | none => .park p
    | some .closechan => .fin Write.closed none
    | some .datachan =>
      if t.datachan.closed then .fin (.panic "send on closed channel") none
      else .fin (Write.sent b) (some p)

/-! ## Goroutines calling the methods of one device -/

/-- A call of a method of the device. -/
inductive Call where
  | read (out : Slice) (offset : Int)
  | write (b : Slice) (n : Int)
  | close
  | flush
  | mtu
  | name
  | file

/-- The state of a goroutine that makes one call on the device. -/
inductive Goroutine where
  /-- the call has been issued and has not run yet -/
  | call (c : Call)
  /-- parked in the select of `Read(out, offset)` -/
  | readWait (out : Slice) (offset : Int)
  /-- parked in the select of `Write(b, n)`, offering `payload`, the value of `b[n:]` -/
  | writeWait (b payload : Slice)
  /-- inside `Close`, about to run the statement at position `pc` -/
  | closing (pc : Nat)
  /-- the call has ended with outcome `o`; for `Read`, `out` is the buffer afterwards -/
  | done (o : Outcome) (out : Option Slice)

/-- A device and the goroutines calling it. -/
structure System where
  dev : fakeTUN
  gs : List Goroutine

/-- One scheduling decision: goroutine `tid` runs; `choice` resolves a select
with several cases that can proceed, `peer` picks among several parked peers. -/
structure Event where
  tid : Nat
  choice : Nat
  peer : Nat

/-- The goroutines parked in `Write`, numbered from `i`: index, `b`, payload. -/
def writersFrom (i : Nat) : List Goroutine → List (Nat × Slice × Slice)
  | [] => []
  | .writeWait b p :: gs => (i, b, p) :: writersFrom (i + 1) gs
  | _ :: gs => writersFrom (i + 1) gs

/-- The goroutines parked in `Read`, numbered from `i`: index, `out`, offset. -/
def readersFrom (i : Nat) : List Goroutine → List (Nat × Slice × Int)
  | [] => []
  | .readWait out off :: gs => (i, out, off) :: readersFrom (i + 1) gs
  | _ :: gs => readersFrom (i + 1) gs

/-- Completion of a parked goroutine by the closing of `closechan`: its select
takes the case `<-t.closechan`. -/
def wakeClosechan : Goroutine → Goroutine
  | .readWait out _ => .done (Read.closed out).1 (some (Read.closed out).2)
  | .writeWait _ _ => .done Write.closed none
  | g => g

/-- Completion of a parked goroutine by the closing of `datachan`: a parked
receive gets the nil slice, a parked send panics. -/
def wakeDatachan : Goroutine → Goroutine
  | .readWait out off => .done (Read.recv Slice.nil out off).1 (some (Read.recv Slice.nil out off).2)
  | .writeWait _ _ => .done (.panic "send on closed channel") none
  | g => g

/-- The goroutines after the `close` statement at position `pc` of `Close` has
closed its channel. Nothing modelled here is parked on `evchan`. -/
def wake (pc : Nat) (gs : List Goroutine) : List Goroutine :=
  match pc with
  | 0 => gs.map wakeClosechan
  | 1 => gs.map wakeDatachan
  | _ => gs

/-- Goroutine `i` runs the statement at position `pc` of `Close`; after the third
statement it returns nil. -/
def stepClose (s : System) (i pc : Nat) : System :=
  match Close.stmt pc s.dev with
  | .error msg => ⟨s.dev, s.gs.set i (.done (.panic msg) none)⟩
  | .ok dev =>
    ⟨dev, (wake pc s.gs).set i (if 2 ≤ pc then .done (.err none) none else .closing (pc + 1))⟩

/-- The goroutine named by `e` runs `Read(out, offset)`: it parks, or it ends; when
it takes a packet from a parked writer, that writer ends too. -/
def stepRead (s : System) (e : Event) (out : Slice) (offset : Int) : System :=
  let ws := writersFrom 0 s.gs
  let w := ws[e.peer % ws.length]?
  match Read s.dev (w.map fun x => x.2.2) e.choice out offset with
  | none => ⟨s.dev, s.gs.set e.tid (.readWait out offset)⟩
  | some (c, o, out1) =>
    let gs := s.gs.set e.tid (.done o (some out1))
    match c, s.dev.datachan.closed, w with
    | .datachan, false, some (j, b, _) => ⟨s.dev, gs.set j (.done (Write.sent b) none)⟩
    | _, _, _ => ⟨s.dev, gs⟩

/-- The goroutine named by `e` runs `Write(b, n)`: it parks, or it ends; when it
hands its packet to a parked reader, that reader runs its receive branch and ends. -/
def stepWrite (s : System) (e : Event) (b : Slice) (n : Int) : System :=
  let rs := readersFrom 0 s.gs
  let r := rs[e.peer % rs.length]?
  match Write s.dev r.isSome e.choice b n with
  | .park p => ⟨s.dev, s.gs.set e.tid (.writeWait b p)⟩
  | .fin o sent =>
    let gs := s.gs.set e.tid (.done o none)
    match sent, r with
    | some p, some (j, out, off) =>
      ⟨s.dev, gs.set j (.done (Read.recv p out off).1 (some (Read.recv p out off).2))⟩
    | _, _ => ⟨s.dev, gs⟩

/-- One step of the system: the goroutine named by the event runs. A parked or
finished goroutine does not run. -/
def step (s : System) (e : Event) : System :=
  match s.gs[e.tid]? with
  | some (.call (.read out offset)) => stepRead s e out offset
  | some (.call (.write b n)) => stepWrite s e b n
  | some (.call .close) => stepClose s e.tid 0
  | some (.call .flush) => ⟨s.dev, s.gs.set e.tid (.done (Flush s.dev) none)⟩
  | some (.call .mtu) => ⟨s.dev, s.gs.set e.tid (.done (MTU s.dev) none)⟩
  | some (.call .name) => ⟨s.dev, s.gs.set e.tid (.done (Name s.dev) none)⟩
  | some (.call .file) => ⟨s.dev, s.gs.set e.tid (.done (File s.dev) none)⟩
  | some (.closing pc) => stepClose s e.tid pc
  | _ => s

/-- The system after the scheduling decisions `es`, in order. -/
def run (s : System) (es : List Event) : System := es.foldl step s

/-- A new device and the goroutines that issue the calls `cs` on it. -/
def start (cs : List Call) : System := ⟨NewFakeTUN, cs.map Goroutine.call⟩

/-- The slice whose elements are `l`, with capacity `len(l)`. -/
def Slice.ofList (l : List Byte) (h : l.length ≤ maxInt) : Slice := ⟨l, l.length, Nat.le_refl _, h⟩

/-- The goroutines of a new device with one writer (goroutine 0, `Write(b, n)`)
and one reader (goroutine 1, `Read(out, offset)`), given which of the two have
run so far. -/
def pairGs (b out : Slice) (n offset : Int) (w r : Bool) : List Goroutine :=
  match b.sliceFrom n, w, r with
  | _, false, false => [.call (.write b n), .call (.read out offset)]
  | _, false, true => [.call (.write b n), .readWait out offset]
  | some p, true, false => [.writeWait b p, .call (.read out offset)]
  | some p, true, true =>
    [.done (Write.sent b) none, .done (Read.recv p out offset).1 (some (Read.recv p out offset).2)]
  | none, true, false => [.done (.panic "slice bounds out of range") none, .call (.read out offset)]
  | none, true, true => [.done (.panic "slice bounds out of range") none, .readWait out offset]

/-- Whether goroutine `i` is scheduled in `es`. -/
def scheduled (i : Nat) (es : List Event) : Bool := es.any fun e => e.tid == i

/-- Whether a goroutine is parked in a select. -/
def Goroutine.parked : Goroutine → Bool
  | .readWait _ _ => true
  | .writeWait _ _ => true
  | _ => false

/-! ## Sample values -/

/-- The packet `{1, 2, 3}`. -/
def pkt : Slice := Slice.ofList [1, 2, 3] (by decide)

/-- A buffer of four zero bytes. -/
def buf : Slice := Slice.ofList [0, 0, 0, 0] (by decide)

/-- A buffer of one byte. -/
def buf1 : Slice := Slice.ofList [7] (by decide)

/-! ## Lemmas on slices and on the copy -/

theorem wrapInt_eq (x : Int) (h1 : -2 ^ 63 ≤ x) (h2 : x < 2 ^ 63) : wrapInt x = x := by
  unfold wrapInt
  omega

theorem wrapInt_neg (x : Int) (h1 : 2 ^ 63 ≤ x) (h2 : x < 2 ^ 64) : wrapInt x < 0 := by
  unfold wrapInt
  omega

theorem Slice.cap_lt (s : Slice) : (s.cap : Int) < 2 ^ 63 := by
  have h := s.cap_le
  unfold maxInt at h
  unfold Slice.cap
  omega

theorem Slice.len_le_cap (s : Slice) : s.len ≤ s.cap := s.len_le

theorem Slice.length_bytes (s : Slice) : s.bytes.length = s.len := by
  simp [Slice.bytes, s.len_le]

theorem length_copyAt (arr : List Byte) (lo k : Nat) (src : List Byte) :
    (copyAt arr lo k src).length = arr.length := by
  simp [copyAt]

theorem getElem?_copyAt (arr : List Byte) (lo k : Nat) (src : List Byte) (i : Nat) :
    (copyAt arr lo k src)[i]? =
      if i < arr.length then
        (if lo ≤ i ∧ i < lo + min k src.length then src[i - lo]? else arr[i]?)
      else none := by
  unfold copyAt
  rw [List.getElem?_map]
  by_cases hi : i < arr.length
  · rw [List.getElem?_range hi, if_pos hi, Option.map_some']
    by_cases hw : lo ≤ i ∧ i < lo + min k src.length
    · have hlt : i - lo < src.length := by
        have := Nat.min_le_right k src.length
        omega
      simp only [if_pos hw, List.getD_eq_getElem?_getD, List.getElem?_eq_getElem hlt,
        Option.getD_some]
    · simp only [if_neg hw, List.getD_eq_getElem?_getD, List.getElem?_eq_getElem hi,
        Option.getD_some]
  · rw [if_neg hi]
    have : (List.range arr.length)[i]? = none := by
      apply List.getElem?_eq_none
      simpa using hi
    rw [this]
    rfl

/-- Outside the window the copy keeps every element. -/
theorem getElem?_copyAt_frame (arr : List Byte) (lo k : Nat) (src : List Byte) (i : Nat)
    (h : i < lo ∨ lo + min k src.length ≤ i) : (copyAt arr lo k src)[i]? = arr[i]? := by
  rw [getElem?_copyAt]
  by_cases hi : i < arr.length
  · rw [if_pos hi, if_neg (by omega)]
  · rw [if_neg hi]
    exact (List.getElem?_eq_none (by omega)).symm

/-- Inside the window the copy stores the elements of the source. -/
theorem getElem?_copyAt_window (arr : List Byte) (lo k : Nat) (src : List Byte) (j : Nat)
    (hj : j < min k src.length) (h : lo + min k src.length ≤ arr.length) :
    (copyAt arr lo k src)[lo + j]? = src[j]? := by
  rw [getElem?_copyAt, if_pos (by omega), if_pos (by omega)]
  congr 1
  omega

/-! ## The receive branch of `Read` -/

/-- The bounds check of `out[offset:offset+len(b)]`, made on the wrapped sum,
holds exactly when the window fits in the capacity of `out`. -/
theorem recv_guard_iff (b out : Slice) (offset : Int) :
    (0 ≤ offset ∧ offset ≤ wrapInt (offset + b.len) ∧ wrapInt (offset + b.len) ≤ (out.cap : Int)) ↔
      (0 ≤ offset ∧ offset + b.len ≤ (out.cap : Int)) := by
  have hb := b.cap_lt
  have hbl : (b.len : Int) ≤ (b.cap : Int) := by exact_mod_cast b.len_le_cap
  have ho := out.cap_lt
  constructor
  · rintro ⟨h0, h1, h2⟩
    refine ⟨h0, ?_⟩
    by_cases hs : offset + (b.len : Int) < 2 ^ 63
    · rw [wrapInt_eq _ (by omega) hs] at h2
      exact h2
    · have := wrapInt_neg (offset + b.len) (by omega) (by omega)
      omega
  · rintro ⟨h0, h1⟩
    rw [wrapInt_eq _ (by omega) (by omega)]
    exact ⟨h0, by omega, h1⟩

theorem Read.recv_fits (b out : Slice) (offset : Int)
    (h : 0 ≤ offset ∧ offset + b.len ≤ (out.cap : Int)) :
    (Read.recv b out offset).1 = .intErr b.len none ∧
      (Read.recv b out offset).2.len = out.len ∧
      (Read.recv b out offset).2.arr = copyAt out.arr offset.toNat b.len b.bytes := by
  have hg := (recv_guard_iff b out offset).2 h
  have hb := b.cap_lt
  have hbl : (b.len : Int) ≤ (b.cap : Int) := by exact_mod_cast b.len_le_cap
  have ho := out.cap_lt
  have hw : wrapInt (offset + b.len) = offset + b.len := wrapInt_eq _ (by omega) (by omega)
  rw [hw] at hg
  unfold Read.recv
  simp only [hw, if_pos hg]
  refine ⟨trivial, trivial, ?_⟩
  congr 1
  omega

theorem Read.recv_unfit (b out : Slice) (offset : Int)
    (h : ¬ (0 ≤ offset ∧ offset + b.len ≤ (out.cap : Int))) :
    Read.recv b out offset = (.panic "slice bounds out of range", out) := by
  have hg := mt (recv_guard_iff b out offset).1 h
  unfold Read.recv
  simp only [if_neg hg]

/-- After a receive that fits, the window of the buffer holds the packet. -/
theorem Read.recv_window (b out : Slice) (offset : Int)
    (h0 : 0 ≤ offset) (h : offset + b.len ≤ (out.len : Int)) :
    (((Read.recv b out offset).2.bytes).drop offset.toNat).take b.len = b.bytes := by
  have hol : (out.len : Int) ≤ (out.cap : Int) := by exact_mod_cast out.len_le_cap
  obtain ⟨_, hlen, harr⟩ := Read.recv_fits b out offset ⟨h0, by omega⟩
  have hcap : out.cap = out.arr.length := rfl
  apply List.ext_getElem?
  intro j
  rw [List.getElem?_take, Slice.bytes, List.getElem?_drop, List.getElem?_take, hlen, harr]
  by_cases hj : j < b.len
  · have hmin : min b.len b.bytes.length = b.len := by rw [b.length_bytes]; exact Nat.min_self _
    rw [if_pos hj, if_pos (by omega),
      getElem?_copyAt_window _ _ _ _ _ (by omega) (by omega)]
  · rw [if_neg hj]
    exact (List.getElem?_eq_none (by rw [b.length_bytes]; omega)).symm

/-- A receive that fits keeps every element of the backing array outside the
window. -/
theorem Read.recv_frame (b out : Slice) (offset : Int)
    (h : 0 ≤ offset ∧ offset + b.len ≤ (out.cap : Int)) (i : Nat)
    (hi : (i : Int) < offset ∨ offset + b.len ≤ (i : Int)) :
    (Read.recv b out offset).2.arr[i]? = out.arr[i]? := by
  obtain ⟨_, _, harr⟩ := Read.recv_fits b out offset h
  rw [harr]
  apply getElem?_copyAt_frame
  rw [b.length_bytes, Nat.min_self]
  omega

theorem step_pair (b out : Slice) (n offset : Int) (w r : Bool) (e : Event) :
    step ⟨NewFakeTUN, pairGs b out n offset w r⟩ e =
      ⟨NewFakeTUN, pairGs b out n offset (w || e.tid == 0) (r || e.tid == 1)⟩ := by
  obtain ⟨tid, choice, peer⟩ := e
  cases hp : b.sliceFrom n <;> cases w <;> cases r <;>
    rcases tid with _ | _ | k <;>
    simp [step, stepRead, stepWrite, pairGs, hp, Read, Write, Read.ready, Write.ready,
      NewFakeTUN, writersFrom, readersFrom, Nat.mod_one]

theorem run_pair (b out : Slice) (n offset : Int) (es : List Event) (w r : Bool) :
    run ⟨NewFakeTUN, pairGs b out n offset w r⟩ es =
      ⟨NewFakeTUN, pairGs b out n offset (w || scheduled 0 es) (r || scheduled 1 es)⟩ := by
  induction es generalizing w r with
  | nil => simp [run, scheduled]
  | cons e es ih =>
    have h := ih (w || e.tid == 0) (r || e.tid == 1)
    simp only [run, List.foldl_cons, step_pair] at h ⊢
    rw [h]
    simp [scheduled, Bool.or_assoc]

theorem Slice.sliceFrom_zero (b : Slice) : b.sliceFrom 0 = some b := by
  unfold Slice.sliceFrom
  simp

theorem Slice.sliceFrom_some (b : Slice) (n : Int) (h : 0 ≤ n ∧ n ≤ (b.len : Int)) :
    ∃ p, b.sliceFrom n = some p ∧ (p.len : Int) = b.len - n ∧ p.bytes = b.bytes.drop n.toNat := by
  refine ⟨⟨b.arr.drop n.toNat, b.len - n.toNat, ?_, ?_⟩, ?_, ?_, ?_⟩
  · rw [List.length_drop]; exact Nat.sub_le_sub_right b.len_le _
  · rw [List.length_drop]; exact Nat.le_trans (Nat.sub_le _ _) b.cap_le
  · unfold Slice.sliceFrom
    rw [if_pos h]
  · show ((b.len - n.toNat : Nat) : Int) = b.len - n
    omega
  · show (b.arr.drop n.toNat).take (b.len - n.toNat) = (b.arr.take b.len).drop n.toNat
    rw [List.drop_take]

theorem Slice.sliceFrom_none (b : Slice) (n : Int) (h : ¬ (0 ≤ n ∧ n ≤ (b.len : Int))) :
    b.sliceFrom n = none := by
  unfold Slice.sliceFrom
  rw [if_neg h]

/-- After a receive that fits in the capacity, the window of the backing array
holds the packet. -/
theorem Read.recv_window_arr (b out : Slice) (offset : Int)
    (h : 0 ≤ offset ∧ offset + b.len ≤ (out.cap : Int)) :
    (((Read.recv b out offset).2.arr).drop offset.toNat).take b.len = b.bytes := by
  obtain ⟨_, _, harr⟩ := Read.recv_fits b out offset h
  have hcap : out.cap = out.arr.length := rfl
  apply List.ext_getElem?
  intro j
  rw [List.getElem?_take, List.getElem?_drop, harr]
  by_cases hj : j < b.len
  · have hmin : min b.len b.bytes.length = b.len := by rw [b.length_bytes]; exact Nat.min_self _
    rw [if_pos hj, getElem?_copyAt_window _ _ _ _ _ (by omega) (by omega)]
  · rw [if_neg hj]
    exact (List.getElem?_eq_none (by rw [b.length_bytes]; omega)).symm

theorem start_pair (b out : Slice) (n offset : Int) :
    start [.write b n, .read out offset] = ⟨NewFakeTUN, pairGs b out n offset false false⟩ := by
  cases h : b.sliceFrom n <;> simp [start, pairGs, h]

/-- The system of one writer and one reader on a new device after any schedule. -/
theorem run_start_pair (b out : Slice) (n offset : Int) (es : List Event) :
    run (start [.write b n, .read out offset]) es =
      ⟨NewFakeTUN, pairGs b out n offset (scheduled 0 es) (scheduled 1 es)⟩ := by
  rw [start_pair, run_pair]
  simp

/-! ## Goroutine table: parked peers, finished goroutines, the closed device -/

theorem mem_writersFrom (gs : List Goroutine) (k j : Nat) (b p : Slice)
    (h : (j, b, p) ∈ writersFrom k gs) : k ≤ j ∧ gs[j - k]? = some (.writeWait b p) := by
  induction gs generalizing k with
  | nil => simp [writersFrom] at h
  | cons g gs ih =>
    have hrec : (j, b, p) ∈ writersFrom (k + 1) gs →
        k ≤ j ∧ (g :: gs)[j - k]? = some (.writeWait b p) := by
      intro h1
      obtain ⟨h2, h3⟩ := ih (k + 1) h1
      refine ⟨by omega, ?_⟩
      rw [show j - k = (j - (k + 1)) + 1 by omega, List.getElem?_cons_succ]
      exact h3
    cases g with
    | writeWait b0 p0 =>
      simp only [writersFrom, List.mem_cons, Prod.mk.injEq] at h
      rcases h with ⟨h1, h2, h3⟩ | h
      · subst h1 h2 h3
        simp
      · exact hrec h
    | call c => exact hrec (by simpa only [writersFrom] using h)
    | readWait a c => exact hrec (by simpa only [writersFrom] using h)
    | closing c => exact hrec (by simpa only [writersFrom] using h)
    | done a c => exact hrec (by simpa only [writersFrom] using h)

theorem mem_readersFrom (gs : List Goroutine) (k j : Nat) (out : Slice) (off : Int)
    (h : (j, out, off) ∈ readersFrom k gs) : k ≤ j ∧ gs[j - k]? = some (.readWait out off) := by
  induction gs generalizing k with
  | nil => simp [readersFrom] at h
  | cons g gs ih =>
    have hrec : (j, out, off) ∈ readersFrom (k + 1) gs →
        k ≤ j ∧ (g :: gs)[j - k]? = some (.readWait out off) := by
      intro h1
      obtain ⟨h2, h3⟩ := ih (k + 1) h1
      refine ⟨by omega, ?_⟩
      rw [show j - k = (j - (k + 1)) + 1 by omega, List.getElem?_cons_succ]
      exact h3
    cases g with
    | readWait b0 p0 =>
      simp only [readersFrom, List.mem_cons, Prod.mk.injEq] at h
      rcases h with ⟨h1, h2, h3⟩ | h
      · subst h1 h2 h3
        simp
      · exact hrec h
    | call c => exact hrec (by simpa only [readersFrom] using h)
    | writeWait a c => exact hrec (by simpa only [readersFrom] using h)
    | closing c => exact hrec (by simpa only [readersFrom] using h)
    | done a c => exact hrec (by simpa only [readersFrom] using h)

/-- The goroutine a `Read` takes a packet from is parked in `Write`. -/
theorem writer_parked (gs : List Goroutine) (k j : Nat) (b p : Slice)
    (h : (writersFrom 0 gs)[k]? = some (j, b, p)) : gs[j]? = some (.writeWait b p) :=
  (mem_writersFrom gs 0 j b p (List.getElem?_mem h)).2

/-- The goroutine a `Write` hands a packet to is parked in `Read`. -/
theorem reader_parked (gs : List Goroutine) (k j : Nat) (out : Slice) (off : Int)
    (h : (readersFrom 0 gs)[k]? = some (j, out, off)) : gs[j]? = some (.readWait out off) :=
  (mem_readersFrom gs 0 j out off (List.getElem?_mem h)).2

/-- A step changes only the goroutine that runs and goroutines that are parked:
where the table held `g`, not parked, at an index other than the running one, it
still holds `g`, unless the step is a `close` that wakes. -/
theorem stepRead_other (s : System) (e : Event) (out : Slice) (offset : Int) (i : Nat)
    (g : Goroutine) (hi : s.gs[i]? = some g) (hg : g.parked = false) (hne : e.tid ≠ i) :
    (stepRead s e out offset).gs[i]? = some g := by
  unfold stepRead
  simp only []
  split
  · simp only [List.getElem?_set_ne hne, hi]
  · split
    · rename_i j b x hd hw hrd
      have hj := writer_parked _ _ _ _ _ hw
      have hji : j ≠ i := by
        rintro rfl
        rw [hi] at hj
        injection hj with hj
        subst hj
        exact Bool.noConfusion hg
      simp only [List.getElem?_set_ne hji, List.getElem?_set_ne hne, hi]
    · simp only [List.getElem?_set_ne hne, hi]


theorem stepWrite_other (s : System) (e : Event) (b : Slice) (n : Int) (i : Nat)
    (g : Goroutine) (hi : s.gs[i]? = some g) (hg : g.parked = false) (hne : e.tid ≠ i) :
    (stepWrite s e b n).gs[i]? = some g := by
  unfold stepWrite
  simp only []
  split
  · simp only [List.getElem?_set_ne hne, hi]
  · split
    · rename_i j out off hw hwr
      have hj := reader_parked _ _ _ _ _ hw
      have hji : j ≠ i := by
        rintro rfl
        rw [hi] at hj
        injection hj with hj
        subst hj
        exact Bool.noConfusion hg
      simp only [List.getElem?_set_ne hji, List.getElem?_set_ne hne, hi]
    · simp only [List.getElem?_set_ne hne, hi]

theorem wake_done (pc : Nat) (gs : List Goroutine) (i : Nat) (o : Outcome) (out : Option Slice)
    (hi : gs[i]? = some (.done o out)) : (wake pc gs)[i]? = some (.done o out) := by
  unfold wake
  split
  · rw [List.getElem?_map, hi]; rfl
  · rw [List.getElem?_map, hi]; rfl
  · exact hi

theorem stepClose_done (s : System) (t pc i : Nat) (o : Outcome) (out : Option Slice)
    (hi : s.gs[i]? = some (.done o out)) (hne : t ≠ i) :
    (stepClose s t pc).gs[i]? = some (.done o out) := by
  unfold stepClose
  split
  · simp only [List.getElem?_set_ne hne, hi]
  · simp only [List.getElem?_set_ne hne, wake_done pc s.gs i o out hi]

/-- A finished goroutine keeps its outcome. -/
theorem step_done (s : System) (e : Event) (i : Nat) (o : Outcome) (out : Option Slice)
    (hi : s.gs[i]? = some (.done o out)) : (step s e).gs[i]? = some (.done o out) := by
  by_cases hne : e.tid = i
  · unfold step
    rw [hne, hi]
    exact hi
  · unfold step
    split
    · exact stepRead_other s e _ _ i _ hi rfl hne
    · exact stepWrite_other s e _ _ i _ hi rfl hne
    · exact stepClose_done s e.tid 0 i o out hi hne
    · simp only [List.getElem?_set_ne hne, hi]
    · simp only [List.getElem?_set_ne hne, hi]
    · simp only [List.getElem?_set_ne hne, hi]
    · simp only [List.getElem?_set_ne hne, hi]
    · exact stepClose_done s e.tid _ i o out hi hne
    · exact hi

theorem run_done (s : System) (es : List Event) (i : Nat) (o : Outcome) (out : Option Slice)
    (hi : s.gs[i]? = some (.done o out)) : (run s es).gs[i]? = some (.done o out) := by
  induction es generalizing s with
  | nil => exact hi
  | cons e es ih => exact ih (step s e) (step_done s e i o out hi)


theorem Read_closed_some (t : fakeTUN) (sender : Option Slice) (choice : Nat) (out : Slice)
    (offset : Int) (h : t.closechan.closed = true) : Read t sender choice out offset ≠ none := by
  unfold Read Read.ready
  rw [if_pos h]
  by_cases hd : (t.datachan.closed || sender.isSome) = true
  · rw [if_pos hd]
    rcases Nat.mod_two_eq_zero_or_one choice with h2 | h2 <;> simp [h2]
  · rw [if_neg hd]
    simp [Nat.mod_one]

theorem Write_closed_fin (t : fakeTUN) (receiver : Bool) (choice : Nat) (b : Slice) (n : Int)
    (h : t.closechan.closed = true) (p : Slice) : Write t receiver choice b n ≠ .park p := by
  unfold Write Write.ready
  rw [if_pos h]
  cases b.sliceFrom n with
  | none => simp
  | some q =>
    by_cases hd : (t.datachan.closed || receiver) = true
    · rw [if_pos hd]
      rcases Nat.mod_two_eq_zero_or_one choice with h2 | h2
      · simp [h2]
      · simp [h2]
        split <;> simp
    · rw [if_neg hd]
      simp [Nat.mod_one]


theorem wakeClosechan_parked (g : Goroutine) : (wakeClosechan g).parked = false := by
  cases g <;> rfl

theorem wakeDatachan_parked (g : Goroutine) : (wakeDatachan g).parked = false := by
  cases g <;> rfl

theorem wake_noWait (pc : Nat) (gs : List Goroutine) (h : ∀ g ∈ gs, g.parked = false) :
    ∀ g ∈ wake pc gs, g.parked = false := by
  intro g hg
  unfold wake at hg
  split at hg
  · obtain ⟨a, _, rfl⟩ := List.mem_map.1 hg
    exact wakeClosechan_parked a
  · obtain ⟨a, _, rfl⟩ := List.mem_map.1 hg
    exact wakeDatachan_parked a
  · exact h g hg

theorem set_noWait (gs : List Goroutine) (i : Nat) (a : Goroutine)
    (h : ∀ g ∈ gs, g.parked = false) (ha : a.parked = false) :
    ∀ g ∈ gs.set i a, g.parked = false := by
  intro g hg
  rcases List.mem_or_eq_of_mem_set hg with h1 | h1
  · exact h g h1
  · rw [h1]; exact ha

theorem Close.stmt_closechan (pc : Nat) (t t1 : fakeTUN) (h : t.closechan.closed = true)
    (hs : Close.stmt pc t = .ok t1) : t1.closechan.closed = true := by
  unfold Close.stmt at hs
  split at hs
  · simp [Chan.close, h, Except.map] at hs
  · unfold Chan.close at hs
    split at hs
    · simp [Except.map] at hs
    · simp only [Except.map, Except.ok.injEq] at hs
      rw [← hs]; exact h
  · unfold Chan.close at hs
    split at hs
    · simp [Except.map] at hs
    · simp only [Except.map, Except.ok.injEq] at hs
      rw [← hs]; exact h

theorem stepClose_inv (s : System) (i pc : Nat) (hc : s.dev.closechan.closed = true)
    (hp : ∀ g ∈ s.gs, g.parked = false) :
    (stepClose s i pc).dev.closechan.closed = true ∧
      ∀ g ∈ (stepClose s i pc).gs, g.parked = false := by
  unfold stepClose
  split
  · exact ⟨hc, set_noWait _ _ _ hp rfl⟩
  · rename_i dev hs
    refine ⟨Close.stmt_closechan pc s.dev dev hc hs, set_noWait _ _ _ (wake_noWait pc s.gs hp) ?_⟩
    split <;> rfl

theorem stepRead_inv (s : System) (e : Event) (out : Slice) (offset : Int)
    (hc : s.dev.closechan.closed = true) (hp : ∀ g ∈ s.gs, g.parked = false) :
    (stepRead s e out offset).dev.closechan.closed = true ∧
      ∀ g ∈ (stepRead s e out offset).gs, g.parked = false := by
  unfold stepRead
  simp only []
  split
  · rename_i hr
    exact absurd hr (Read_closed_some _ _ _ _ _ hc)
  · split
    · exact ⟨hc, set_noWait _ _ _ (set_noWait _ _ _ hp rfl) rfl⟩
    · exact ⟨hc, set_noWait _ _ _ hp rfl⟩

theorem stepWrite_inv (s : System) (e : Event) (b : Slice) (n : Int)
    (hc : s.dev.closechan.closed = true) (hp : ∀ g ∈ s.gs, g.parked = false) :
    (stepWrite s e b n).dev.closechan.closed = true ∧
      ∀ g ∈ (stepWrite s e b n).gs, g.parked = false := by
  unfold stepWrite
  simp only []
  split
  · rename_i p hw
    exact absurd hw (Write_closed_fin _ _ _ _ _ hc p)
  · split
    · exact ⟨hc, set_noWait _ _ _ (set_noWait _ _ _ hp rfl) rfl⟩
    · exact ⟨hc, set_noWait _ _ _ hp rfl⟩

/-- Once `closechan` is closed and no goroutine is parked, this stays so. -/
theorem step_inv (s : System) (e : Event)
    (hc : s.dev.closechan.closed = true) (hp : ∀ g ∈ s.gs, g.parked = false) :
    (step s e).dev.closechan.closed = true ∧ ∀ g ∈ (step s e).gs, g.parked = false := by
  unfold step
  split
  · exact stepRead_inv s e _ _ hc hp
  · exact stepWrite_inv s e _ _ hc hp
  · exact stepClose_inv s e.tid 0 hc hp
  · exact ⟨hc, set_noWait _ _ _ hp rfl⟩
  · exact ⟨hc, set_noWait _ _ _ hp rfl⟩
  · exact ⟨hc, set_noWait _ _ _ hp rfl⟩
  · exact ⟨hc, set_noWait _ _ _ hp rfl⟩
  · exact stepClose_inv s e.tid _ hc hp
  · exact ⟨hc, hp⟩

theorem run_inv (s : System) (es : List Event)
    (hc : s.dev.closechan.closed = true) (hp : ∀ g ∈ s.gs, g.parked = false) :
    (run s es).dev.closechan.closed = true ∧ ∀ g ∈ (run s es).gs, g.parked = false := by
  induction es generalizing s with
  | nil => exact ⟨hc, hp⟩
  | cons e es ih => exact ih (step s e) (step_inv s e hc hp).1 (step_inv s e hc hp).2

/-- The first statement of `Close` on a device whose `closechan` is open. -/
theorem step_close_open (s : System) (e : Event) (hopen : s.dev.closechan.closed = false)
    (hc : s.gs[e.tid]? = some (.call .close)) :
    step s e = ⟨⟨s.dev.datachan, s.dev.evchan, ⟨true⟩⟩,
      (s.gs.map wakeClosechan).set e.tid (.closing 1)⟩ := by
  unfold step
  rw [hc]
  simp [stepClose, Close.stmt, Chan.close, hopen, wake, Except.map]

theorem lt_length_of_getElem? (gs : List Goroutine) (i : Nat) (g : Goroutine)
    (h : gs[i]? = some g) : i < gs.length := by
  by_contra hlt
  rw [List.getElem?_eq_none (by omega)] at h
  exact Option.noConfusion h

/-- With `closechan` closed, a `Read` or `Write` that runs ends in that step. -/
theorem step_call_ends (s : System) (e : Event) (c : Call)
    (hc : s.dev.closechan.closed = true) (hi : s.gs[e.tid]? = some (.call c))
    (hrw : (∃ out offset, c = .read out offset) ∨ (∃ b n, c = .write b n)) :
    ∃ o out1, (step s e).gs[e.tid]? = some (.done o out1) := by
  have hlt := lt_length_of_getElem? _ _ _ hi
  unfold step
  rw [hi]
  rcases hrw with ⟨out, offset, rfl⟩ | ⟨b, n, rfl⟩
  · simp only [stepRead]
    split
    · rename_i hr
      exact absurd hr (Read_closed_some _ _ _ _ _ hc)
    · rename_i cs o out1 hr
      split
      · rename_i j b x hd hw
        have hj := writer_parked _ _ _ _ _ hw
        have hji : j ≠ e.tid := by
          intro h
          rw [h, hi] at hj
          injection hj with hj
          exact Goroutine.noConfusion hj
        exact ⟨o, some out1, by
          simp only [List.getElem?_set_ne hji]
          exact List.getElem?_set_self hlt⟩
      · exact ⟨o, some out1, List.getElem?_set_self hlt⟩
  · simp only [stepWrite]
    split
    · rename_i p hw
      exact absurd hw (Write_closed_fin _ _ _ _ _ hc p)
    · rename_i o sent hw
      split
      · rename_i p j out off hr
        have hj := reader_parked _ _ _ _ _ hr
        have hji : j ≠ e.tid := by
          intro h
          rw [h, hi] at hj
          injection hj with hj
          exact Goroutine.noConfusion hj
        exact ⟨o, none, by
          simp only [List.getElem?_set_ne hji]
          exact List.getElem?_set_self hlt⟩
      · exact ⟨o, none, List.getElem?_set_self hlt⟩

/-! ## The claims -/

/-- C1: on a new device, `Write(P, 0)` by goroutine 0 and `Read(out, 0)` by
goroutine 1 with `len(out) >= len(P)`: under every schedule that runs both, the
device stays open, `Write` returns `(len(P), nil)`, `Read` returns `(len(P), nil)`
and `out[0:len(P)]` equals `P`; the empty `P` is included. -/
theorem write_read_roundtrip (P out : Slice) (es : List Event) (hlen : P.len ≤ out.len)
    (hw : scheduled 0 es = true) (hr : scheduled 1 es = true) :
    ∃ out1 : Slice,
      run (start [.write P 0, .read out 0]) es =
        ⟨NewFakeTUN, [.done (.intErr P.len none) none, .done (.intErr P.len none) (some out1)]⟩ ∧
      out1.len = out.len ∧ out1.bytes.take P.len = P.bytes := by
  have hfit : (0 : Int) ≤ 0 ∧ (0 : Int) + P.len ≤ (out.cap : Int) := by
    have := out.len_le_cap
    omega
  obtain ⟨h1, h2, _⟩ := Read.recv_fits P out 0 hfit
  refine ⟨(Read.recv P out 0).2, ?_, h2, ?_⟩
  · rw [run_start_pair, hw, hr]
    simp only [pairGs, Slice.sliceFrom_zero, Write.sent, h1]
  · have := Read.recv_window P out 0 (le_refl 0) (by omega)
    rw [show Int.toNat 0 = 0 from rfl, List.drop_zero] at this
    exact this

theorem write_read_roundtrip_witness :
    ∃ out1 : Slice,
      run (start [.write pkt 0, .read buf 0]) [⟨1, 0, 0⟩, ⟨0, 0, 0⟩] =
        ⟨NewFakeTUN, [.done (.intErr 3 none) none, .done (.intErr 3 none) (some out1)]⟩ ∧
      out1.len = 4 ∧ out1.bytes.take 3 = [1, 2, 3] :=
  write_read_roundtrip pkt buf [⟨1, 0, 0⟩, ⟨0, 0, 0⟩] (by decide) (by decide) (by decide)

/-- C2, the code at the failing input: after `Close` has returned, `Read(out, 0)`
whose select takes the case `b := <-t.datachan` receives the nil slice from the
closed channel and returns `(0, nil)`, not `(0, io.EOF)`; with an offset beyond the
capacity of `out` the same case panics. -/
theorem read_after_close_takes_datachan :
    run (start [.close, .read buf1 0]) [⟨0, 0, 0⟩, ⟨0, 0, 0⟩, ⟨0, 0, 0⟩, ⟨1, 1, 0⟩] =
      ⟨⟨⟨true⟩, ⟨true⟩, ⟨true⟩⟩, [.done (.err none) none, .done (.intErr 0 none) (some buf1)]⟩ ∧
    run (start [.close, .read buf1 2]) [⟨0, 0, 0⟩, ⟨0, 0, 0⟩, ⟨0, 0, 0⟩, ⟨1, 1, 0⟩] =
      ⟨⟨⟨true⟩, ⟨true⟩, ⟨true⟩⟩,
        [.done (.err none) none, .done (.panic "slice bounds out of range") (some buf1)]⟩ :=
  ⟨rfl, rfl⟩

/-- C3, the code at the failing input: after `Close` has returned, `Write(b, 0)`
whose select takes the case `t.datachan <- b[n:]` sends on the closed channel and
panics. -/
theorem write_after_close_takes_datachan :
    run (start [.close, .write pkt 0]) [⟨0, 0, 0⟩, ⟨0, 0, 0⟩, ⟨0, 0, 0⟩, ⟨1, 1, 0⟩] =
      ⟨⟨⟨true⟩, ⟨true⟩, ⟨true⟩⟩,
        [.done (.err none) none, .done (.panic "send on closed channel") none]⟩ :=
  rfl

/-- C4, counterexample: the second `Close` on a device panics. -/
theorem second_close_panics :
    Close (Close NewFakeTUN).2 = (.panic "close of closed channel", ⟨⟨true⟩, ⟨true⟩, ⟨true⟩⟩) ∧
    run (start [.close, .close]) [⟨0, 0, 0⟩, ⟨0, 0, 0⟩, ⟨0, 0, 0⟩, ⟨1, 0, 0⟩] =
      ⟨⟨⟨true⟩, ⟨true⟩, ⟨true⟩⟩,
        [.done (.err none) none, .done (.panic "close of closed channel") none]⟩ :=
  ⟨rfl, rfl⟩

/-- C4, amended: the first `Close` on a new device closes the three channels and
returns nil; `Close` on a device whose `closechan` is already closed panics at
`close(t.closechan)` and leaves the device and every goroutine as they were: the
device stays closed and no channel is closed again. -/
theorem close_latch :
    Close NewFakeTUN = (.err none, ⟨⟨true⟩, ⟨true⟩, ⟨true⟩⟩) ∧
    (∀ t : fakeTUN, t.closechan.closed = true →
      Close t = (.panic "close of closed channel", t)) ∧
    (∀ (s : System) (e : Event), s.dev.closechan.closed = true →
      s.gs[e.tid]? = some (.call .close) →
      step s e = ⟨s.dev, s.gs.set e.tid (.done (.panic "close of closed channel") none)⟩) := by
  refine ⟨rfl, fun t h => ?_, fun s e h hc => ?_⟩
  · simp [Close, Close.stmt, Chan.close, h, Except.map]
  · unfold step
    rw [hc]
    simp [stepClose, Close.stmt, Chan.close, h, Except.map]

theorem close_latch_witness :
    Close (Close NewFakeTUN).2 = (.panic "close of closed channel", (Close NewFakeTUN).2) ∧
    step ⟨(Close NewFakeTUN).2, [.call .close]⟩ ⟨0, 0, 0⟩ =
      ⟨(Close NewFakeTUN).2, [.done (.panic "close of closed channel") none]⟩ :=
  ⟨close_latch.2.1 (Close NewFakeTUN).2 rfl,
    close_latch.2.2 ⟨(Close NewFakeTUN).2, [.call .close]⟩ ⟨0, 0, 0⟩ rfl rfl⟩

/-- C5: on a new device, `Write(b, n)` with `0 <= n <= len(b)` by goroutine 0 and
`Read(out, offset)` by goroutine 1 whose window fits in `out`: under every schedule
that runs both, `Write` returns `(len(b), nil)`, the full length, `Read` returns
`(len(b) - n, nil)`, and the window of `out` holds exactly `b[n:]`. -/
theorem write_offset_handoff (b out : Slice) (n offset : Int) (es : List Event)
    (hn : 0 ≤ n ∧ n ≤ (b.len : Int))
    (hfit : 0 ≤ offset ∧ offset + ((b.len : Int) - n) ≤ (out.len : Int))
    (hw : scheduled 0 es = true) (hr : scheduled 1 es = true) :
    ∃ out1 : Slice,
      run (start [.write b n, .read out offset]) es =
        ⟨NewFakeTUN,
          [.done (.intErr b.len none) none, .done (.intErr (b.len - n) none) (some out1)]⟩ ∧
      (out1.bytes.drop offset.toNat).take (b.len - n).toNat = b.bytes.drop n.toNat := by
  obtain ⟨p, hp, hplen, hpbytes⟩ := b.sliceFrom_some n hn
  have hol : (out.len : Int) ≤ (out.cap : Int) := by exact_mod_cast out.len_le_cap
  obtain ⟨h1, _, _⟩ := Read.recv_fits p out offset ⟨hfit.1, by omega⟩
  refine ⟨(Read.recv p out offset).2, ?_, ?_⟩
  · rw [run_start_pair, hw, hr]
    simp only [pairGs, hp, Write.sent, h1, hplen]
  · have hw := Read.recv_window p out offset hfit.1 (by omega)
    have hk : ((b.len : Int) - n).toNat = p.len := by omega
    rw [hk, hw, hpbytes]

theorem write_offset_handoff_witness :
    ∃ out1 : Slice,
      run (start [.write pkt 1, .read buf 1]) [⟨0, 0, 0⟩, ⟨1, 0, 0⟩] =
        ⟨NewFakeTUN, [.done (.intErr 3 none) none, .done (.intErr 2 none) (some out1)]⟩ ∧
      (out1.bytes.drop 1).take 2 = [2, 3] :=
  write_offset_handoff pkt buf 1 1 [⟨0, 0, 0⟩, ⟨1, 0, 0⟩]
    (by decide) (by decide) (by decide) (by decide)

/-- C6: when `Close` runs its first statement on a device whose `closechan` is
open, every goroutine parked in `Write` ends with `(0, ErrClosed)` and every
goroutine parked in `Read` ends with `(0, io.EOF)` and its buffer untouched, and
they keep these outcomes; from then on no goroutine is parked, and a `Read` or
`Write` that runs ends in the step in which it runs. -/
theorem close_wakes_blocked (s : System) (e : Event)
    (hopen : s.dev.closechan.closed = false)
    (hc : s.gs[e.tid]? = some (.call .close)) :
    (∀ (i : Nat) (b p : Slice) (es : List Event), s.gs[i]? = some (.writeWait b p) →
      (run (step s e) es).gs[i]? = some (.done (.intErr 0 (some .ErrClosed)) none)) ∧
    (∀ (i : Nat) (out : Slice) (off : Int) (es : List Event),
      s.gs[i]? = some (.readWait out off) →
      (run (step s e) es).gs[i]? = some (.done (.intErr 0 (some .EOF)) (some out))) ∧
    (∀ es : List Event, ∀ g ∈ (run (step s e) es).gs, g.parked = false) ∧
    (∀ (es : List Event) (e2 : Event) (c : Call),
      (run (step s e) es).gs[e2.tid]? = some (.call c) →
      ((∃ out offset, c = .read out offset) ∨ (∃ b n, c = .write b n)) →
      ∃ o out1, (step (run (step s e) es) e2).gs[e2.tid]? = some (.done o out1)) := by
  have hstep := step_close_open s e hopen hc
  have hclosed : (step s e).dev.closechan.closed = true := by rw [hstep]
  have hnowait : ∀ g ∈ (step s e).gs, g.parked = false := by
    rw [hstep]
    refine set_noWait (s.gs.map wakeClosechan) e.tid (.closing 1) (fun g hg => ?_) rfl
    obtain ⟨a, _, rfl⟩ := List.mem_map.1 hg
    exact wakeClosechan_parked a
  have hwoken : ∀ (i : Nat) (g : Goroutine), s.gs[i]? = some g → g.parked = true →
      (step s e).gs[i]? = some (wakeClosechan g) := by
    intro i g hi hg
    have hne : e.tid ≠ i := by
      intro h
      rw [h, hi] at hc
      injection hc with hc
      rw [hc] at hg
      exact Bool.noConfusion hg
    rw [hstep]
    simp only [List.getElem?_set_ne hne, List.getElem?_map, hi, Option.map_some']
  refine ⟨fun i b p es hi => ?_, fun i out off es hi => ?_, fun es => ?_, fun es e2 c hi hrw => ?_⟩
  · exact run_done _ es i _ _ (hwoken i _ hi rfl)
  · exact run_done _ es i _ _ (hwoken i _ hi rfl)
  · exact (run_inv _ es hclosed hnowait).2
  · exact step_call_ends _ e2 c (run_inv _ es hclosed hnowait).1 hi hrw

theorem close_wakes_blocked_witness :
    (run (start [.write pkt 0, .close]) [⟨0, 0, 0⟩, ⟨1, 0, 0⟩]).gs[0]? =
      some (.done (.intErr 0 (some .ErrClosed)) none) ∧
    (run (start [.read buf 0, .close]) [⟨0, 0, 0⟩, ⟨1, 0, 0⟩]).gs[0]? =
      some (.done (.intErr 0 (some .EOF)) (some buf)) :=
  ⟨(close_wakes_blocked (run (start [.write pkt 0, .close]) [⟨0, 0, 0⟩]) ⟨1, 0, 0⟩ rfl rfl).1
      0 pkt pkt [] rfl,
    (close_wakes_blocked (run (start [.read buf 0, .close]) [⟨0, 0, 0⟩]) ⟨1, 0, 0⟩ rfl rfl).2.1
      0 buf 0 [] rfl⟩

/-- C7: in every state of the device and of the goroutines calling it, `MTU`
returns `(1500, nil)` and `Name` returns `("FakeTUN", nil)`, and a goroutine that
runs either call changes neither the device nor any other goroutine. -/
theorem mtu_name_fixed (s : System) (e : Event) :
    MTU s.dev = .intErr 1500 none ∧ Name s.dev = .strErr "FakeTUN" none ∧
    (s.gs[e.tid]? = some (.call .mtu) →
      step s e = ⟨s.dev, s.gs.set e.tid (.done (.intErr 1500 none) none)⟩) ∧
    (s.gs[e.tid]? = some (.call .name) →
      step s e = ⟨s.dev, s.gs.set e.tid (.done (.strErr "FakeTUN" none) none)⟩) := by
  refine ⟨rfl, rfl, fun h => ?_, fun h => ?_⟩
  · unfold step
    rw [h]
    rfl
  · unfold step
    rw [h]
    rfl

theorem mtu_name_fixed_witness :
    step (run (start [.close, .mtu, .name]) [⟨0, 0, 0⟩, ⟨0, 0, 0⟩, ⟨0, 0, 0⟩]) ⟨1, 0, 0⟩ =
      ⟨⟨⟨true⟩, ⟨true⟩, ⟨true⟩⟩,
        [.done (.err none) none, .done (.intErr 1500 none) none, .call .name]⟩ ∧
    step (start [.close, .mtu, .name]) ⟨2, 0, 0⟩ =
      ⟨NewFakeTUN, [.call .close, .call .mtu, .done (.strErr "FakeTUN" none) none]⟩ :=
  ⟨(mtu_name_fixed (run (start [.close, .mtu, .name]) [⟨0, 0, 0⟩, ⟨0, 0, 0⟩, ⟨0, 0, 0⟩])
      ⟨1, 0, 0⟩).2.2.1 rfl,
    (mtu_name_fixed (start [.close, .mtu, .name]) ⟨2, 0, 0⟩).2.2.2 rfl⟩

/-- C8: in every state of the device, `File` returns no value: it panics, and a
goroutine that runs it ends in that panic. -/
theorem file_always_panics (s : System) (e : Event) :
    File s.dev = .panic "fakeTUN.File() called, which makes no sense" ∧
    (s.gs[e.tid]? = some (.call .file) →
      step s e = ⟨s.dev,
        s.gs.set e.tid (.done (.panic "fakeTUN.File() called, which makes no sense") none)⟩) := by
  refine ⟨rfl, fun h => ?_⟩
  unfold step
  rw [h]
  rfl

theorem file_always_panics_witness :
    step (start [.file]) ⟨0, 0, 0⟩ =
      ⟨NewFakeTUN, [.done (.panic "fakeTUN.File() called, which makes no sense") none]⟩ :=
  (file_always_panics (start [.file]) ⟨0, 0, 0⟩).2 rfl

/-- C9, counterexample: `Write({1,2,3}, 0)` meets `Read(out, 0)` with an empty
`out`; the send completes and `Write` returns `(3, nil)`, while `Read` panics on
`out[0:3]` and delivers nothing. -/
theorem write_succeeds_read_panics :
    run (start [.write pkt 0, .read Slice.nil 0]) [⟨0, 0, 0⟩, ⟨1, 0, 0⟩] =
      ⟨NewFakeTUN, [.done (.intErr 3 none) none,
        .done (.panic "slice bounds out of range") (some Slice.nil)]⟩ := by
  rfl

/-- C9, amended: on a new device with `Write(b, n)` as goroutine 0 and
`Read(out, offset)` as goroutine 1, whenever `Write` has returned `(len(b), nil)`:
if the window fits in the capacity of `out` (`0 <= offset` and
`offset + len(b) - n <= cap(out)`) the `Read` has returned `(len(b) - n, nil)` and
the window holds exactly `b[n:]`; if it does not fit, the `Read` has panicked and
`out` is unchanged. -/
theorem write_success_read_outcome (b out : Slice) (n offset : Int) (es : List Event)
    (hsucc : (run (start [.write b n, .read out offset]) es).gs[0]? =
      some (.done (.intErr b.len none) none)) :
    (0 ≤ offset ∧ offset + ((b.len : Int) - n) ≤ (out.cap : Int) →
      ∃ out1 : Slice,
        (run (start [.write b n, .read out offset]) es).gs[1]? =
          some (.done (.intErr (b.len - n) none) (some out1)) ∧
        (out1.arr.drop offset.toNat).take (b.len - n).toNat = b.bytes.drop n.toNat) ∧
    (¬ (0 ≤ offset ∧ offset + ((b.len : Int) - n) ≤ (out.cap : Int)) →
      (run (start [.write b n, .read out offset]) es).gs[1]? =
        some (.done (.panic "slice bounds out of range") (some out))) := by
  rw [run_start_pair] at hsucc ⊢
  by_cases hn : 0 ≤ n ∧ n ≤ (b.len : Int)
  · obtain ⟨p, hp, hplen, hpbytes⟩ := b.sliceFrom_some n hn
    cases hw : scheduled 0 es <;> cases hr : scheduled 1 es <;>
      simp only [pairGs, hp, hw, hr, List.getElem?_cons_zero, Option.some.injEq] at hsucc <;>
      try exact Goroutine.noConfusion hsucc
    simp only [pairGs, hp, List.getElem?_cons_succ, List.getElem?_cons_zero, Option.some.injEq]
    have hk : ((b.len : Int) - n).toNat = p.len := by omega
    constructor
    · intro hfit
      have hfit2 : 0 ≤ offset ∧ offset + (p.len : Int) ≤ (out.cap : Int) := ⟨hfit.1, by omega⟩
      obtain ⟨h1, _, _⟩ := Read.recv_fits p out offset hfit2
      refine ⟨(Read.recv p out offset).2, ?_, ?_⟩
      · rw [h1, hplen]
      · rw [hk, Read.recv_window_arr p out offset hfit2, hpbytes]
    · intro hunfit
      have hunfit2 : ¬ (0 ≤ offset ∧ offset + (p.len : Int) ≤ (out.cap : Int)) := by
        rw [hplen]
        exact hunfit
      rw [Read.recv_unfit p out offset hunfit2]
  · have hp := b.sliceFrom_none n hn
    cases hw : scheduled 0 es <;> cases hr : scheduled 1 es <;>
      simp only [pairGs, hp, hw, hr, List.getElem?_cons_zero, Option.some.injEq] at hsucc <;>
      first
        | exact Goroutine.noConfusion hsucc
        | (injection hsucc with h1 h2; exact Outcome.noConfusion h1)

theorem write_success_read_outcome_witness :
    (∃ out1 : Slice,
      (run (start [.write pkt 1, .read buf 1]) [⟨1, 0, 0⟩, ⟨0, 0, 0⟩]).gs[1]? =
        some (.done (.intErr 2 none) (some out1)) ∧
      (out1.arr.drop 1).take 2 = [2, 3]) ∧
    (run (start [.write pkt 0, .read buf 2]) [⟨1, 0, 0⟩, ⟨0, 0, 0⟩]).gs[1]? =
      some (.done (.panic "slice bounds out of range") (some buf)) :=
  ⟨(write_success_read_outcome pkt buf 1 1 [⟨1, 0, 0⟩, ⟨0, 0, 0⟩] rfl).1 (by decide),
    (write_success_read_outcome pkt buf 0 2 [⟨1, 0, 0⟩, ⟨0, 0, 0⟩] rfl).2 (by decide)⟩

/-- C10: for a received packet `P` and a window with `offset + len(P) <= len(out)`,
the receive branch of `Read` returns `(len(P), nil)` exactly when `offset >= 0`,
and when it does the buffer keeps its length and capacity, `out[offset:offset+len(P)]`
equals `P`, and every byte at an index below `offset` or at or above
`offset+len(P)` is unchanged. -/
theorem read_writes_only_window (P out : Slice) (offset : Int)
    (hsz : offset + (P.len : Int) ≤ (out.len : Int)) :
    ((Read.recv P out offset).1 = .intErr P.len none ↔ 0 ≤ offset) ∧
    ((Read.recv P out offset).1 = .intErr P.len none →
      (Read.recv P out offset).2.len = out.len ∧
      (Read.recv P out offset).2.cap = out.cap ∧
      (((Read.recv P out offset).2.bytes).drop offset.toNat).take P.len = P.bytes ∧
      ∀ i : Nat, ((i : Int) < offset ∨ offset + (P.len : Int) ≤ (i : Int)) →
        (Read.recv P out offset).2.bytes[i]? = out.bytes[i]?) := by
  have hol : (out.len : Int) ≤ (out.cap : Int) := by exact_mod_cast out.len_le_cap
  have hiff : (Read.recv P out offset).1 = .intErr P.len none ↔ 0 ≤ offset := by
    constructor
    · intro h
      by_contra h0
      rw [Read.recv_unfit P out offset (fun hh => h0 hh.1)] at h
      exact Outcome.noConfusion h
    · intro h0
      exact (Read.recv_fits P out offset ⟨h0, by omega⟩).1
  refine ⟨hiff, fun hret => ?_⟩
  have h0 := hiff.1 hret
  have hfit : 0 ≤ offset ∧ offset + (P.len : Int) ≤ (out.cap : Int) := ⟨h0, by omega⟩
  obtain ⟨_, hlen, harr⟩ := Read.recv_fits P out offset hfit
  refine ⟨hlen, ?_, Read.recv_window P out offset h0 hsz, ?_⟩
  · unfold Slice.cap
    rw [harr, length_copyAt]
  · intro i hi
    unfold Slice.bytes
    rw [List.getElem?_take, List.getElem?_take, hlen, Read.recv_frame P out offset hfit i hi]

theorem read_writes_only_window_witness :
    (Read.recv pkt buf 1).2.len = 4 ∧
    (((Read.recv pkt buf 1).2.bytes).drop 1).take 3 = [1, 2, 3] ∧
    (Read.recv pkt buf 1).2.bytes[0]? = some 0 :=
  ⟨((read_writes_only_window pkt buf 1 (by decide)).2 rfl).1,
    ((read_writes_only_window pkt buf 1 (by decide)).2 rfl).2.2.1,
    ((read_writes_only_window pkt buf 1 (by decide)).2 rfl).2.2.2 0 (Or.inl (by decide))⟩

end tstun
